import Mathlib

/-!
Verification development for a small HTTP document-toolkit backend
(`src/main.py`): a page-range parser and six document operations
(merge, split, rotate, compress, images-to-document, image extraction).

The Python code is shallowly embedded: each handler becomes a Lean
function over explicit data; external-library behaviour (pypdf page
objects, PIL image handles, Python `zipfile`) is modelled by structures
recording exactly the facets the handlers touch, with comments citing
the library semantics relied upon.
-/

namespace PdfToolkit

instance {ε α : Type} [DecidableEq ε] [DecidableEq α] : DecidableEq (Except ε α) := fun x y =>
  match x, y with
  | Except.ok a, Except.ok b =>
    if h : a = b then isTrue (congrArg Except.ok h)
    else isFalse (fun hh => h (Except.ok.inj hh))
  | Except.ok _, Except.error _ => isFalse (fun hh => Except.noConfusion hh)
  | Except.error _, Except.ok _ => isFalse (fun hh => Except.noConfusion hh)
  | Except.error e, Except.error f =>
    if h : e = f then isTrue (congrArg Except.error h)
    else isFalse (fun hh => h (Except.error.inj hh))

/-- Errors that `_parse_pages` can raise.
`invalidSelection` models `HTTPException(status_code=400, detail="No valid pages selected")`;
`valueError` models a Python `ValueError` escaping from `int(...)` on a
token that is not a well-formed integer literal. -/
inductive PErr where
  | invalidSelection
  | valueError
  deriving DecidableEq, Repr

/-- Python `s.split(sep)` for a single-character separator: every
occurrence splits, empty pieces are kept (`"a,,b" → ["a","","b"]`,
`"" → [""]`).  Defined on character lists so proofs and concrete
evaluation reduce structurally. -/
def pySplitAux (c : Char) : List Char → List Char → List (List Char)
  | [], cur => [cur.reverse]
  | x :: xs, cur =>
    if x = c then cur.reverse :: pySplitAux c xs []
    else pySplitAux c xs (x :: cur)

/-- Python `s.split(sep)` (single-character separator), as strings. -/
def pySplit (s : String) (c : Char) : List String :=
  (pySplitAux c s.toList []).map String.mk

/-- Python `s.strip()`: remove leading and trailing whitespace. -/
def pyStrip (s : String) : String :=
  String.mk (((s.toList.dropWhile Char.isWhitespace).reverse.dropWhile Char.isWhitespace).reverse)

/-- Parse a non-empty all-digit character list as a natural number
(the digit part of Python `int(...)` on a string). -/
def digitsToNat (s : List Char) : Option Nat :=
  if s = [] then none
  else if s.all Char.isDigit then
    some (s.foldl (fun acc c => acc * 10 + (c.toNat - 48)) 0)
  else none

/-- Python `int(s)` for strings: strips surrounding whitespace, accepts an
optional sign followed by digits, raises `ValueError` (here: `none`)
otherwise.  (Underscore digit grouping accepted by CPython is not
modelled; it does not affect any input evaluated in this file.) -/
def pyInt (s : String) : Option Int :=
  match (pyStrip s).toList with
  | '-' :: rest => (digitsToNat rest).map (fun n => -(n : Int))
  | '+' :: rest => (digitsToNat rest).map (fun n => (n : Int))
  | l => (digitsToNat l).map (fun n => (n : Int))

/-- Python `s.split(sep, 1)` when `sep` occurs in `s`: the part before the
first occurrence and everything after it.  Returns `(s, "")`-style junk
only when the separator is absent, which callers rule out first. -/
def splitOnceAux (c : Char) : List Char → List Char × List Char
  | [] => ([], [])
  | x :: xs =>
    if x = c then ([], xs)
    else
      let p := splitOnceAux c xs
      (x :: p.1, p.2)

/-- `splitOnce s c = (a, b)` with `a` the text before the first `c` and
`b` the text after it. -/
def splitOnce (s : String) (c : Char) : String × String :=
  let p := splitOnceAux c s.toList
  (String.mk p.1, String.mk p.2)

/-- Python `range(lo, hi)` over integers, as a list of naturals
(callers only use it with `lo ≥ 0`). -/
def intRange (lo hi : Int) : List Nat :=
  List.range' lo.toNat (hi - lo).toNat

/-- Insert `x` into a strictly-ascending duplicate-free list, keeping it
strictly ascending and duplicate free.  Folding this models Python's
`selected` set followed by the final `sorted(selected)`. -/
def insertAsc (x : Nat) : List Nat → List Nat
  | [] => [x]
  | y :: ys =>
    if x < y then x :: y :: ys
    else if x = y then y :: ys
    else y :: insertAsc x ys

/-- The indices contributed by one (already stripped, non-empty) token of
the page expression: a range token `a-b` contributes
`range(max(1,int(a)) - 1, min(total, int(b)))`; a single token `n`
contributes `[n-1]` when `1 ≤ n ≤ total` and nothing otherwise.
A token whose `int(...)` conversion fails raises `ValueError`. -/
def tokenIndices (part : String) (total_pages : Nat) : Except PErr (List Nat) :=
  if (part.toList).contains '-' then
    let p := splitOnce part '-'
    match pyInt p.1, pyInt p.2 with
    | some ia, some ib =>
      let start : Int := max 1 ia
      let stop : Int := min (total_pages : Int) ib
      Except.ok (intRange (start - 1) stop)
    | _, _ => Except.error PErr.valueError
  else
    match pyInt part with
    | some idx =>
      if 1 ≤ idx ∧ idx ≤ (total_pages : Int) then Except.ok [(idx - 1).toNat]
      else Except.ok []
    | none => Except.error PErr.valueError

/-- The `for part in pages.split(',')` loop of `_parse_pages`: strips each
part, skips empty parts, and accumulates every contributed index into the
(sorted, duplicate-free) selection. -/
def procParts (total_pages : Nat) : List String → List Nat → Except PErr (List Nat)
  | [], sel => Except.ok sel
  | part :: rest, sel =>
    let t := pyStrip part
    if t = "" then procParts total_pages rest sel
    else
      match tokenIndices t total_pages with
      | Except.error e => Except.error e
      | Except.ok idxs => procParts total_pages rest (idxs.foldl (fun s i => insertAsc i s) sel)

/-- `_parse_pages(pages, total_pages)` from `src/main.py`: an absent or
empty expression (Python falsy) selects every page; otherwise the
comma-separated tokens are parsed, merged into a set, sorted, and an
empty final selection raises the 400 "No valid pages selected" error. -/
def _parse_pages (pages : Option String) (total_pages : Nat) : Except PErr (List Nat) :=
  match pages with
  | none => Except.ok (List.range total_pages)
  | some p =>
    if p = "" then Except.ok (List.range total_pages)
    else
      match procParts total_pages (pySplit p ',') [] with
      | Except.error e => Except.error e
      | Except.ok sel => if sel = [] then Except.error PErr.invalidSelection else Except.ok sel

/-- Python `s.lower()`. -/
def pyLower (s : String) : String :=
  String.mk (s.toList.map Char.toLower)

/-- `f.filename.lower().endswith('.pdf')`, the filename-based type check
used by every document endpoint. -/
def endsWithPdf (s : String) : Bool :=
  (s.toList.map Char.toLower).reverse.take 4 == ['f', 'd', 'p', '.']

/-- A pypdf page as the handlers use it: `pid` identifies the page's
content (pages are only copied, never synthesised), `rot` is the `/Rotate`
entry.  pypdf's `PageObject.rotate(angle)` adds the angle to the existing
`/Rotate` value; a viewer interprets `/Rotate` modulo 360. -/
structure Page where
  pid : Nat
  rot : Int
  deriving DecidableEq, Repr

/-- A decoded document: its ordered list of pages (`reader.pages`). -/
abbrev Doc := List Page

/-- Default page used for the (unreachable) out-of-bounds case of
`reader.pages[i]`; `_parse_pages` only produces in-bounds indices. -/
def dPage : Page := ⟨0, 0⟩

/-- An uploaded file: its filename and the result of
`PdfReader(BytesIO(await f.read()))` — `Except.error m` models the
decode raising an exception with message `m`. -/
structure PdfUpload where
  filename : String
  decoded : Except String Doc
  deriving DecidableEq, Repr

/-- What an endpoint invocation can surface to the HTTP client:
`http status detail` is a raised/returned `HTTPException`; `pyError`
is any other exception escaping the handler (FastAPI turns it into a
generic 500 outside the code under study). -/
inductive ApiErr where
  | http (status : Nat) (detail : String)
  | pyError (msg : String)
  deriving DecidableEq, Repr

/-- An exception raised inside `merge_pdfs`' `try` block: either the
`HTTPException(400, ...)` raised by the extension check, or any other
exception (a pypdf decode failure). -/
inductive MergeExc where
  | httpExc (status : Nat) (detail : String)
  | exc (msg : String)
  deriving DecidableEq, Repr

/-- Python `str(e)` on such an exception.  Starlette's `HTTPException`
stringifies as `"{status_code}: {detail}"`. -/
def mergeStr : MergeExc → String
  | MergeExc.httpExc s d => toString s ++ ": " ++ d
  | MergeExc.exc m => m

/-- The `for f in files` body of `merge_pdfs`: check the extension
(raising `HTTPException(400, f"{f.filename} is not a PDF")`), decode,
and append every page of `f` to the writer, in order. -/
def mergeLoop : List PdfUpload → Doc → Except MergeExc Doc
  | [], acc => Except.ok acc
  | f :: fs, acc =>
    if endsWithPdf f.filename then
      match f.decoded with
      | Except.error m => Except.error (MergeExc.exc m)
      | Except.ok doc => mergeLoop fs (acc ++ doc)
    else Except.error (MergeExc.httpExc 400 (f.filename ++ " is not a PDF"))

/-- `POST /api/pdf/merge`.  Fewer than two files fails with 400 before
the `try`; everything raised inside the `try` — including the
extension check's own `HTTPException(400, ...)` — is caught by
`except Exception as e` and re-raised as `HTTPException(500, str(e))`. -/
def merge_pdfs (files : List PdfUpload) : Except ApiErr Doc :=
  if files.length < 2 then
    Except.error (ApiErr.http 400 "Upload at least two PDF files to merge")
  else
    match mergeLoop files [] with
    | Except.ok doc => Except.ok doc
    | Except.error e => Except.error (ApiErr.http 500 (mergeStr e))

/-- `POST /api/pdf/split`: extension check, decode (a decode failure is
an uncaught exception), parse the page expression against the page
count, then append `reader.pages[i]` for each selected index in the
order `_parse_pages` returned. -/
def split_pdf (file : PdfUpload) (pages : Option String) : Except ApiErr Doc :=
  if endsWithPdf file.filename then
    match file.decoded with
    | Except.error m => Except.error (ApiErr.pyError m)
    | Except.ok doc =>
      match _parse_pages pages doc.length with
      | Except.error PErr.invalidSelection =>
        Except.error (ApiErr.http 400 "No valid pages selected")
      | Except.error PErr.valueError =>
        Except.error (ApiErr.pyError "ValueError: invalid literal for int()")
      | Except.ok indices => Except.ok (indices.map (fun i => doc.getD i dPage))
  else Except.error (ApiErr.http 400 "File must be a PDF")

/-- Python truthiness of the optional `pages` form field: `None` and
`""` are falsy. -/
def pagesTruthy : Option String → Bool
  | none => false
  | some s => !(s == "")

/-- The writer loop of `rotate_pdf`: for each `(i, page)` of
`enumerate(reader.pages)`, call `page.rotate(angle)` when `i` is in the
target set (pypdf adds `angle` to the page's `/Rotate`), then append. -/
def rotateDoc (doc : Doc) (indices : List Nat) (angle : Int) : Doc :=
  doc.enum.map (fun p => if indices.contains p.1 then { p.2 with rot := p.2.rot + angle } else p.2)

/-- `POST /api/pdf/rotate`.  `angleForm = none` models a request that
omits the `angle` field; FastAPI's `Form(90)` then supplies 90.
The angle is validated against `(90, 180, 270)` before anything else;
`indices = set(_parse_pages(pages, total)) if pages else set(range(total))`. -/
def rotate_pdf (file : PdfUpload) (angleForm : Option Int) (pages : Option String) :
    Except ApiErr Doc :=
  let angle := angleForm.getD 90
  if angle = 90 ∨ angle = 180 ∨ angle = 270 then
    if endsWithPdf file.filename then
      match file.decoded with
      | Except.error m => Except.error (ApiErr.pyError m)
      | Except.ok doc =>
        match (if pagesTruthy pages then _parse_pages pages doc.length
               else Except.ok (List.range doc.length)) with
        | Except.error PErr.invalidSelection =>
          Except.error (ApiErr.http 400 "No valid pages selected")
        | Except.error PErr.valueError =>
          Except.error (ApiErr.pyError "ValueError: invalid literal for int()")
        | Except.ok indices => Except.ok (rotateDoc doc indices angle)
    else Except.error (ApiErr.http 400 "File must be a PDF")
  else Except.error (ApiErr.http 400 "Angle must be 90, 180, or 270")

/-- The serialized output of a `PdfWriter`: the appended pages plus
whether any of pypdf's structure-sharing / object-stream /
identical-object-compression options was enabled on the writer before
`write` (all of them are opt-in and default to off in pypdf). -/
structure WriterOutput where
  pages : Doc
  optimizationsEnabled : Bool
  deriving DecidableEq, Repr

/-- `POST /api/pdf/compress`: extension check, decode, append every page
unchanged, write.  The handler calls no pypdf optimization API (the
`# Enable object streams` comment is only a comment), so the writer is
serialized with its defaults. -/
def compress_pdf (file : PdfUpload) : Except ApiErr WriterOutput :=
  if endsWithPdf file.filename then
    match file.decoded with
    | Except.error m => Except.error (ApiErr.pyError m)
    | Except.ok doc => Except.ok ⟨doc, false⟩
  else Except.error (ApiErr.http 400 "File must be a PDF")

/-- A decoded PIL image handle (`Image.open(BytesIO(content)).convert("RGB")`),
identified by which upload produced it. -/
structure PILImage where
  iid : Nat
  deriving DecidableEq, Repr

/-- One uploaded image file: `decoded = none` models `Image.open`/`convert`
raising on that file's bytes. -/
structure ImgUpload where
  decoded : Option PILImage
  deriving DecidableEq, Repr

/-- The decode loop of `images_to_pdf`: on success every decoded handle,
in submission order; on a decode failure, the handles already held in
`pil_images` at the moment the exception is raised. -/
def decodeLoop : List ImgUpload → List PILImage → Except (List PILImage) (List PILImage)
  | [], acc => Except.ok acc
  | i :: is, acc =>
    match i.decoded with
    | none => Except.error acc
    | some im => decodeLoop is (acc ++ [im])

/-- Outcome of one `images_to_pdf` invocation: the HTTP response (an
`ok` carries the output document's pages, one per image, as the list of
images placed on them in order) together with the decoded PIL handles
that are still open when the handler exits. -/
structure ImagesResult where
  response : Except ApiErr (List PILImage)
  openAtExit : List PILImage
  deriving DecidableEq, Repr

/-- `POST /api/pdf/images-to-pdf`.  `saveRaises` models whether
`first.save(pdf_bytes, format="PDF", save_all=True, append_images=rest)`
raises.  On a decode failure the `except` closes every handle in
`pil_images` and raises 400; after a successful save every handle is
closed; but an exception from `save` itself propagates with no cleanup
on its path. -/
def images_to_pdf (images : List ImgUpload) (saveRaises : Bool) : ImagesResult :=
  if images.length = 0 then
    ⟨Except.error (ApiErr.http 400 "Upload at least one image"), []⟩
  else
    match decodeLoop images [] with
    | Except.error _ =>
      ⟨Except.error (ApiErr.http 400 "One or more files are not valid images"), []⟩
    | Except.ok pil =>
      if saveRaises then ⟨Except.error (ApiErr.pyError "save raised"), pil⟩
      else ⟨Except.ok pil, []⟩

/-- One step of iterating `page.images` in `extract_images`:
`img fmt data` is an `image_file_object` whose `.image.format` is `fmt`
(`none` models a missing `.image` attribute, giving extension `bin`) and
whose bytes are `data`; `err` marks the point at which the iteration —
or reading the next object — raises. -/
inductive ImgItem where
  | img (fmt : Option String) (data : List Nat)
  | err
  deriving DecidableEq, Repr

/-- A page as seen by `extract_images`: the sequence of steps produced
by iterating its `page.images`. -/
structure XPage where
  items : List ImgItem
  deriving DecidableEq, Repr

/-- An upload to `extract_images`: filename plus the `PdfReader` result
exposing each page's image iteration behaviour. -/
structure XUpload where
  filename : String
  decoded : Except String (List XPage)
  deriving DecidableEq, Repr

/-- A named member written into the zip archive with `zf.writestr`. -/
structure ZipEntry where
  name : String
  data : List Nat
  deriving DecidableEq, Repr

/-- The inner `for image_file_object in page.images` loop, wrapped in
`try`: each image increments the document-wide counter and appends an
entry `page{pageIdx}_img{count}.{ext}`; at an `err` step the exception
is caught and the rest of the page is skipped — entries already written
to the archive stay. -/
def pageLoop : List ImgItem → Nat → Nat → List ZipEntry → Nat × List ZipEntry
  | [], _, cnt, acc => (cnt, acc)
  | ImgItem.err :: _, _, cnt, acc => (cnt, acc)
  | ImgItem.img fmt data :: rest, pageIdx, cnt, acc =>
    let cnt2 := cnt + 1
    let ext := match fmt with
      | some f => pyLower f
      | none => "bin"
    let nm := "page" ++ toString pageIdx ++ "_img" ++ toString cnt2 ++ "." ++ ext
    pageLoop rest pageIdx cnt2 (acc ++ [⟨nm, data⟩])

/-- The outer `for page_idx, page in enumerate(reader.pages, start=1)`
loop: every page is processed (a failure on one page never stops the
loop), threading the document-wide image counter. -/
def extractLoop : List XPage → Nat → Nat → List ZipEntry → Nat × List ZipEntry
  | [], _, cnt, acc => (cnt, acc)
  | p :: ps, pageIdx, cnt, acc =>
    let r := pageLoop p.items pageIdx cnt acc
    extractLoop ps (pageIdx + 1) r.1 r.2

/-- `zip_buf.getbuffer().nbytes` after the `with zipfile.ZipFile(...)`
block: Python's `zipfile` writes the 22-byte end-of-central-directory
record when a write-mode `ZipFile` is closed even if no entry was added
(an empty archive is 22 bytes, never 0).  Each entry additionally
contributes its local header and central-directory header (30 resp. 46
bytes plus the name each) and its payload — approximated here by the
uncompressed size, since with `ZIP_DEFLATED` only the positivity of the
contribution matters below, never its exact value. -/
def zipNBytes (entries : List ZipEntry) : Nat :=
  22 + (entries.map (fun e => 76 + 2 * e.name.length + e.data.length)).sum

/-- What `extract_images` returns on the non-exception paths: either
the `JSONResponse({"message": ...})` or the streamed zip archive. -/
inductive ExtractResult where
  | json (msg : String)
  | archive (entries : List ZipEntry)
  deriving DecidableEq, Repr

/-- `POST /api/pdf/extract-images`: extension check, decode (uncaught on
failure), run the extraction loops, then return the JSON message when
`zip_buf.getbuffer().nbytes == 0` and the archive otherwise. -/
def extract_images (file : XUpload) : Except ApiErr ExtractResult :=
  if endsWithPdf file.filename then
    match file.decoded with
    | Except.error m => Except.error (ApiErr.pyError m)
    | Except.ok pgs =>
      let r := extractLoop pgs 1 0 []
      if zipNBytes r.2 = 0 then Except.ok (ExtractResult.json "No extractable images found")
      else Except.ok (ExtractResult.archive r.2)
  else Except.error (ApiErr.http 400 "File must be a PDF")

example : _parse_pages (some "1-3,5,8-9") 10 = Except.ok [0, 1, 2, 4, 7, 8] := by decide
example : _parse_pages none 4 = Except.ok [0, 1, 2, 3] := by decide
example : _parse_pages (some "999") 5 = Except.error PErr.invalidSelection := by decide
example : _parse_pages (some "abc") 5 = Except.error PErr.valueError := by decide
example : _parse_pages (some "5,1-2") 6 = Except.ok [0, 1, 4] := by decide
example : _parse_pages (some " 2 , 2,0-2") 5 = Except.ok [0, 1] := by decide

example : merge_pdfs [⟨"a.pdf", Except.ok [⟨1, 0⟩]⟩] =
    Except.error (ApiErr.http 400 "Upload at least two PDF files to merge") := by decide
example : merge_pdfs [⟨"a.pdf", Except.ok [⟨1, 0⟩]⟩, ⟨"b.txt", Except.ok [⟨2, 0⟩]⟩] =
    Except.error (ApiErr.http 500 "400: b.txt is not a PDF") := by decide
example : merge_pdfs [⟨"a.pdf", Except.ok [⟨1, 0⟩]⟩, ⟨"b.PDF", Except.ok [⟨2, 0⟩, ⟨3, 90⟩]⟩] =
    Except.ok [⟨1, 0⟩, ⟨2, 0⟩, ⟨3, 90⟩] := by decide
example : split_pdf ⟨"a.pdf", Except.ok [⟨1, 0⟩, ⟨2, 0⟩, ⟨3, 0⟩, ⟨4, 0⟩, ⟨5, 0⟩, ⟨6, 0⟩]⟩
    (some "5,1-2") = Except.ok [⟨1, 0⟩, ⟨2, 0⟩, ⟨5, 0⟩] := by decide
example : rotate_pdf ⟨"a.pdf", Except.ok [⟨1, 0⟩, ⟨2, 0⟩]⟩ none none =
    Except.ok [⟨1, 90⟩, ⟨2, 90⟩] := by decide
example : rotate_pdf ⟨"a.pdf", Except.ok [⟨1, 0⟩, ⟨2, 0⟩]⟩ (some 180) (some "2") =
    Except.ok [⟨1, 0⟩, ⟨2, 180⟩] := by decide
example : rotate_pdf ⟨"a.pdf", Except.ok [⟨1, 0⟩]⟩ (some 45) none =
    Except.error (ApiErr.http 400 "Angle must be 90, 180, or 270") := by decide
example : compress_pdf ⟨"a.pdf", Except.ok [⟨1, 0⟩, ⟨2, 0⟩]⟩ =
    Except.ok ⟨[⟨1, 0⟩, ⟨2, 0⟩], false⟩ := by decide
example : images_to_pdf [⟨some ⟨1⟩⟩, ⟨none⟩, ⟨some ⟨3⟩⟩] false =
    ⟨Except.error (ApiErr.http 400 "One or more files are not valid images"), []⟩ := by decide
example : images_to_pdf [⟨some ⟨1⟩⟩, ⟨some ⟨2⟩⟩] false = ⟨Except.ok [⟨1⟩, ⟨2⟩], []⟩ := by decide
example : images_to_pdf [⟨some ⟨1⟩⟩] true =
    ⟨Except.error (ApiErr.pyError "save raised"), [⟨1⟩]⟩ := by decide
example : extract_images ⟨"a.pdf", Except.ok [⟨[ImgItem.img (some "PNG") [7], ImgItem.err]⟩,
    ⟨[ImgItem.img none [9]]⟩]⟩ =
    Except.ok (ExtractResult.archive [⟨"page1_img1.png", [7]⟩, ⟨"page2_img2.bin", [9]⟩]) := by
  decide
example : extract_images ⟨"a.pdf", Except.ok [⟨[]⟩]⟩ =
    Except.ok (ExtractResult.archive []) := by decide

/-! ### Invariants of the page-range parser -/

theorem insertAsc_cons_lt (x y : Nat) (ys : List Nat) (h : x < y) :
    insertAsc x (y :: ys) = x :: y :: ys := by
  simp [insertAsc, h]

theorem insertAsc_cons_self (x : Nat) (ys : List Nat) :
    insertAsc x (x :: ys) = x :: ys := by
  simp [insertAsc]

theorem insertAsc_cons_gt (x y : Nat) (ys : List Nat) (h1 : ¬x < y) (h2 : x ≠ y) :
    insertAsc x (y :: ys) = y :: insertAsc x ys := by
  simp [insertAsc, h1, h2]

theorem insertAsc_mem (x : Nat) (l : List Nat) (a : Nat) :
    a ∈ insertAsc x l ↔ a = x ∨ a ∈ l := by
  induction l with
  | nil => simp [insertAsc]
  | cons y ys ih =>
    by_cases h1 : x < y
    · rw [insertAsc_cons_lt x y ys h1]
      simp only [List.mem_cons]
    · by_cases h2 : x = y
      · subst h2
        rw [insertAsc_cons_self]
        simp only [List.mem_cons]
        tauto
      · rw [insertAsc_cons_gt x y ys h1 h2]
        simp only [List.mem_cons, ih]
        tauto

theorem insertAsc_sorted (x : Nat) (l : List Nat) (h : l.Sorted (· < ·)) :
    (insertAsc x l).Sorted (· < ·) := by
  induction l with
  | nil => simp [insertAsc]
  | cons y ys ih =>
    rw [List.sorted_cons] at h
    obtain ⟨hy, hys⟩ := h
    by_cases h1 : x < y
    · rw [insertAsc_cons_lt x y ys h1]
      rw [List.sorted_cons]
      refine ⟨?_, ?_⟩
      · intro b hb
        rcases List.mem_cons.mp hb with rfl | hb
        · exact h1
        · exact lt_trans h1 (hy b hb)
      · rw [List.sorted_cons]
        exact ⟨hy, hys⟩
    · by_cases h2 : x = y
      · subst h2
        rw [insertAsc_cons_self]
        rw [List.sorted_cons]
        exact ⟨hy, hys⟩
      · rw [insertAsc_cons_gt x y ys h1 h2]
        rw [List.sorted_cons]
        refine ⟨?_, ih hys⟩
        intro b hb
        rcases (insertAsc_mem x ys b).mp hb with rfl | hb
        · omega
        · exact hy b hb

theorem foldl_insertAsc_sorted (idxs sel : List Nat) (h : sel.Sorted (· < ·)) :
    (idxs.foldl (fun s i => insertAsc i s) sel).Sorted (· < ·) := by
  induction idxs generalizing sel with
  | nil => simpa
  | cons i is ih => exact ih _ (insertAsc_sorted i sel h)

theorem foldl_insertAsc_mem (idxs sel : List Nat) (a : Nat) :
    a ∈ idxs.foldl (fun s i => insertAsc i s) sel ↔ a ∈ idxs ∨ a ∈ sel := by
  induction idxs generalizing sel with
  | nil => simp
  | cons i is ih =>
    simp only [List.foldl_cons, ih, insertAsc_mem, List.mem_cons]
    tauto

theorem intRange_lt (lo hi : Int) (N : Nat) (hlo : 0 ≤ lo) (hhi : hi ≤ (N : Int)) :
    ∀ x ∈ intRange lo hi, x < N := by
  intro x hx
  unfold intRange at hx
  rw [List.mem_range'_1] at hx
  omega

theorem tokenIndices_lt (part : String) (N : Nat) (idxs : List Nat)
    (h : tokenIndices part N = Except.ok idxs) : ∀ x ∈ idxs, x < N := by
  simp only [tokenIndices] at h
  split at h
  · split at h
    · cases h
      intro x hx
      simp only [intRange, List.mem_range'_1] at hx
      omega
    · exact absurd h (by simp)
  · split at h
    · split at h
      · cases h
        intro x hx
        obtain rfl := List.mem_singleton.mp hx
        omega
      · cases h
        intro x hx
        exact absurd hx (List.not_mem_nil x)
    · exact absurd h (by simp)

theorem procParts_sorted_lt (N : Nat) (parts : List String) :
    ∀ sel sel' : List Nat, sel.Sorted (· < ·) → (∀ x ∈ sel, x < N) →
      procParts N parts sel = Except.ok sel' →
      sel'.Sorted (· < ·) ∧ ∀ x ∈ sel', x < N := by
  induction parts with
  | nil =>
    intro sel sel' hs hb h
    cases h
    exact ⟨hs, hb⟩
  | cons part rest ih =>
    intro sel sel' hs hb h
    simp only [procParts] at h
    split at h
    · exact ih sel sel' hs hb h
    · split at h
      · exact absurd h (by simp)
      · next idxs heq =>
        refine ih _ _ (foldl_insertAsc_sorted _ _ hs) ?_ h
        intro x hx
        rcases (foldl_insertAsc_mem _ _ _).mp hx with hxi | hxs
        · exact tokenIndices_lt _ _ _ heq x hxi
        · exact hb x hxs

theorem parse_pages_sorted_lt (pages : Option String) (N : Nat) (l : List Nat)
    (h : _parse_pages pages N = Except.ok l) :
    l.Sorted (· < ·) ∧ ∀ x ∈ l, x < N := by
  unfold _parse_pages at h
  split at h
  · cases h
    exact ⟨List.sorted_lt_range N, by simp⟩
  · split at h
    · cases h
      exact ⟨List.sorted_lt_range N, by simp⟩
    · split at h
      · exact absurd h (by simp)
      · next sel heq =>
        split at h
        · exact absurd h (by simp)
        · cases h
          exact procParts_sorted_lt N _ [] l (by simp) (by simp) heq

/-! ### Structural lemmas about the document operations -/

theorem rotateDoc_length (doc : Doc) (indices : List Nat) (angle : Int) :
    (rotateDoc doc indices angle).length = doc.length := by
  simp [rotateDoc]

theorem rotateDoc_getD (doc : Doc) (indices : List Nat) (angle : Int)
    (i : Nat) (h : i < doc.length) :
    (rotateDoc doc indices angle).getD i dPage =
      (if indices.contains i then
        { doc.getD i dPage with rot := (doc.getD i dPage).rot + angle }
       else doc.getD i dPage) := by
  have h2 : i < (rotateDoc doc indices angle).length := by
    rw [rotateDoc_length]
    exact h
  rw [List.getD_eq_getElem _ _ h2, List.getD_eq_getElem _ _ h]
  simp [rotateDoc, List.getElem_map, List.getElem_enum]

theorem rotateDoc_range (doc : Doc) (angle : Int) :
    rotateDoc doc (List.range doc.length) angle =
      doc.map (fun p => { p with rot := p.rot + angle }) := by
  refine List.ext_getElem (by simp [rotateDoc_length]) ?_
  intro i h1 h2
  have hi : i < doc.length := by
    simpa [rotateDoc_length] using h1
  have hc : (List.range doc.length).contains i = true := by
    simp [List.mem_range]
    omega
  simp [rotateDoc, List.getElem_map, List.getElem_enum, hc]
  intro hcon
  exact absurd hi (Nat.not_lt.mpr hcon)

theorem rotateDoc_four (d : Doc) (idx : List Nat) (i : Nat) (hi : i < d.length) :
    ((rotateDoc (rotateDoc (rotateDoc (rotateDoc d idx 90) idx 90) idx 90) idx 90).getD
        i dPage).pid = (d.getD i dPage).pid ∧
    ((rotateDoc (rotateDoc (rotateDoc (rotateDoc d idx 90) idx 90) idx 90) idx 90).getD
        i dPage).rot % 360 = (d.getD i dPage).rot % 360 := by
  have l1 : i < (rotateDoc d idx 90).length := by rwa [rotateDoc_length]
  have l2 : i < (rotateDoc (rotateDoc d idx 90) idx 90).length := by rwa [rotateDoc_length]
  have l3 : i < (rotateDoc (rotateDoc (rotateDoc d idx 90) idx 90) idx 90).length := by
    rwa [rotateDoc_length]
  rw [rotateDoc_getD _ idx 90 i l3, rotateDoc_getD _ idx 90 i l2,
    rotateDoc_getD _ idx 90 i l1, rotateDoc_getD _ idx 90 i hi]
  by_cases hc : idx.contains i = true
  · simp only [hc, if_true]
    refine ⟨trivial, ?_⟩
    omega
  · simp only [Bool.not_eq_true] at hc
    simp only [hc, Bool.false_eq_true, if_false]
    exact ⟨trivial, trivial⟩

theorem map_getD_range (doc : Doc) :
    (List.range doc.length).map (fun i => doc.getD i dPage) = doc := by
  refine List.ext_getElem (by simp) ?_
  intro i h1 h2
  have hi : i < doc.length := by simpa using h1
  simp only [List.getElem_map, List.getElem_range]
  exact List.getD_eq_getElem _ _ hi

/-! ### The claims -/

/-- C1: for every page-range expression and page count `N ≥ 0`, a successful
parse is strictly ascending, duplicate free, and all its elements lie in
`[0, N-1]`; an absent or empty expression parses to exactly `[0, ..., N-1]`;
and `"1-3,5,8-9"` against a 10-page document yields `[0,1,2,4,7,8]`. -/
theorem parse_pages_canonical (pages : Option String) (N : Nat) (l : List Nat)
    (h : _parse_pages pages N = Except.ok l) :
    l.Sorted (· < ·) ∧ l.Nodup ∧ (∀ x ∈ l, x < N) ∧
    _parse_pages none N = Except.ok (List.range N) ∧
    _parse_pages (some "") N = Except.ok (List.range N) ∧
    _parse_pages (some "1-3,5,8-9") 10 = Except.ok [0, 1, 2, 4, 7, 8] := by
  obtain ⟨hs, hb⟩ := parse_pages_sorted_lt pages N l h
  exact ⟨hs, hs.nodup, hb, rfl, by simp [_parse_pages], by decide⟩

theorem parse_pages_canonical_witness :
    ([1, 3] : List Nat).Sorted (· < ·) ∧ ([1, 3] : List Nat).Nodup ∧
    (∀ x ∈ ([1, 3] : List Nat), x < 5) ∧
    _parse_pages none 5 = Except.ok (List.range 5) ∧
    _parse_pages (some "") 5 = Except.ok (List.range 5) ∧
    _parse_pages (some "1-3,5,8-9") 10 = Except.ok [0, 1, 2, 4, 7, 8] :=
  parse_pages_canonical (some "2,4") 5 [1, 3] (by decide)

/-- C8 counterexample: on the expression `"abc"` against a 5-page document the
parser raises the error modelling `ValueError` (from `int("abc")`), which is
distinct from `InvalidSelection` — so `InvalidSelection` is not the only
error the page-range parser ever raises. -/
theorem parse_pages_valueerror_cex :
    _parse_pages (some "abc") 5 = Except.error PErr.valueError ∧
    PErr.valueError ≠ PErr.invalidSelection := by decide

/-- C8 (amended): if token processing completes without a conversion error
and the accumulated selection is empty, the parser fails with
`InvalidSelection` — in particular `"999"` on a 5-page document does — but a
malformed integer token instead raises a `ValueError` that escapes the
parser, so `InvalidSelection` is not the only error it can raise. -/
theorem parse_pages_empty_selection (p : String) (N : Nat) (hp : p ≠ "")
    (hempty : procParts N (pySplit p ',') [] = Except.ok []) :
    _parse_pages (some p) N = Except.error PErr.invalidSelection ∧
    _parse_pages (some "999") 5 = Except.error PErr.invalidSelection ∧
    _parse_pages (some "abc") 5 = Except.error PErr.valueError := by
  refine ⟨?_, by decide, by decide⟩
  simp only [_parse_pages, if_neg hp, hempty]
  rfl

theorem parse_pages_empty_selection_witness :
    _parse_pages (some "999") 5 = Except.error PErr.invalidSelection ∧
    _parse_pages (some "999") 5 = Except.error PErr.invalidSelection ∧
    _parse_pages (some "abc") 5 = Except.error PErr.valueError :=
  parse_pages_empty_selection "999" 5 (by decide) (by decide)

/-- C4 (code bug): supplying fewer than two files fails with the intended
400 response, but a file whose name lacks the `.pdf` extension surfaces as
a 500: the `HTTPException(400, f"{filename} is not a PDF")` raised inside
the `try` block is caught by `except Exception as e` and re-raised as
`HTTPException(500, str(e))`. -/
theorem merge_validation_status :
    merge_pdfs [⟨"a.pdf", Except.ok [⟨1, 0⟩]⟩] =
      Except.error (ApiErr.http 400 "Upload at least two PDF files to merge") ∧
    merge_pdfs [⟨"a.pdf", Except.ok [⟨1, 0⟩]⟩, ⟨"b.txt", Except.ok [⟨2, 0⟩]⟩] =
      Except.error (ApiErr.http 500 "400: b.txt is not a PDF") := by decide

/-- The six-page document used in the concrete split example. -/
def sixDoc : Doc := [⟨1, 0⟩, ⟨2, 0⟩, ⟨3, 0⟩, ⟨4, 0⟩, ⟨5, 0⟩, ⟨6, 0⟩]

/-- C7: a successful split consists of exactly the source pages at the
parsed indices, appended in strictly ascending index order regardless of
token order in the expression; `"5,1-2"` on a six-page document yields the
1-based pages `[1,2,5]`; and a split with no page expression reproduces the
page sequence exactly (so a full-range re-split is the identity). -/
theorem split_ascending (file : PdfUpload) (pages : Option String) (doc out : Doc)
    (hdec : file.decoded = Except.ok doc) (h : split_pdf file pages = Except.ok out) :
    (∃ indices : List Nat,
      _parse_pages pages doc.length = Except.ok indices ∧
      indices.Sorted (· < ·) ∧ (∀ x ∈ indices, x < doc.length) ∧
      out = indices.map (fun i => doc.getD i dPage)) ∧
    split_pdf ⟨"split.pdf", Except.ok sixDoc⟩ (some "5,1-2") =
      Except.ok [⟨1, 0⟩, ⟨2, 0⟩, ⟨5, 0⟩] ∧
    (∀ d : Doc, split_pdf ⟨"split.pdf", Except.ok d⟩ none = Except.ok d) := by
  refine ⟨?_, by decide, ?_⟩
  · simp only [split_pdf, hdec] at h
    split at h
    · split at h
      · exact absurd h (by simp)
      · exact absurd h (by simp)
      · next indices heq =>
        cases h
        obtain ⟨hs, hb⟩ := parse_pages_sorted_lt pages doc.length indices heq
        exact ⟨indices, heq, hs, hb, rfl⟩
    · exact absurd h (by simp)
  · intro d
    have h1 : split_pdf ⟨"split.pdf", Except.ok d⟩ none =
        Except.ok ((List.range d.length).map (fun i => d.getD i dPage)) := by
      simp [split_pdf, _parse_pages, show endsWithPdf "split.pdf" = true from by decide]
    rw [h1, map_getD_range]

theorem split_ascending_witness :
    (∃ indices : List Nat,
      _parse_pages (some "5,1-2") sixDoc.length = Except.ok indices ∧
      indices.Sorted (· < ·) ∧ (∀ x ∈ indices, x < sixDoc.length) ∧
      ([⟨1, 0⟩, ⟨2, 0⟩, ⟨5, 0⟩] : Doc) = indices.map (fun i => sixDoc.getD i dPage)) ∧
    split_pdf ⟨"split.pdf", Except.ok sixDoc⟩ (some "5,1-2") =
      Except.ok [⟨1, 0⟩, ⟨2, 0⟩, ⟨5, 0⟩] ∧
    (∀ d : Doc, split_pdf ⟨"split.pdf", Except.ok d⟩ none = Except.ok d) :=
  split_ascending ⟨"a.pdf", Except.ok sixDoc⟩ (some "5,1-2") sixDoc
    [⟨1, 0⟩, ⟨2, 0⟩, ⟨5, 0⟩] (by decide) (by decide)

/-- C9 counterexample: on a concrete two-page document, compress returns the
pages unchanged but with the writer's optimization options at their pypdf
defaults (disabled) — the claim that structure-sharing/stream-optimization
options are enabled on the output writer is false. -/
theorem compress_no_optimization_cex :
    compress_pdf ⟨"a.pdf", Except.ok [⟨1, 0⟩, ⟨2, 0⟩]⟩ =
      Except.ok ⟨[⟨1, 0⟩, ⟨2, 0⟩], false⟩ ∧
    (WriterOutput.mk [⟨1, 0⟩, ⟨2, 0⟩] false).optimizationsEnabled ≠ true := by decide

/-- C9 (amended): compress builds its output by appending every source page
unchanged — preserving page count and order — and re-serializes with the
writer's default settings; no structure-sharing or stream-optimization
option is enabled (the source only carries a comment about them). -/
theorem compress_pages_preserved (file : PdfUpload) (doc : Doc) (out : WriterOutput)
    (hdec : file.decoded = Except.ok doc) (h : compress_pdf file = Except.ok out) :
    out.pages = doc ∧ out.optimizationsEnabled = false := by
  simp only [compress_pdf, hdec] at h
  split at h
  · cases h
    exact ⟨rfl, rfl⟩
  · exact absurd h (by simp)

theorem compress_pages_preserved_witness :
    (WriterOutput.mk [⟨1, 0⟩, ⟨2, 0⟩] false).pages = [⟨1, 0⟩, ⟨2, 0⟩] ∧
    (WriterOutput.mk [⟨1, 0⟩, ⟨2, 0⟩] false).optimizationsEnabled = false :=
  compress_pages_preserved ⟨"a.pdf", Except.ok [⟨1, 0⟩, ⟨2, 0⟩]⟩ [⟨1, 0⟩, ⟨2, 0⟩]
    ⟨[⟨1, 0⟩, ⟨2, 0⟩], false⟩ (by decide) (by decide)

/-- C10: a rotation request that omits the angle field entirely does not
fail validation — FastAPI's `Form(90)` default makes it behave exactly like
an explicit angle of 90 — and with no page expression every page is rotated
by 90 degrees. -/
theorem rotate_default_angle (file : PdfUpload) (pages : Option String) (d : Doc) :
    rotate_pdf file none pages = rotate_pdf file (some 90) pages ∧
    rotate_pdf ⟨"rotated.pdf", Except.ok d⟩ none none =
      Except.ok (d.map (fun p => { p with rot := p.rot + 90 })) := by
  refine ⟨rfl, ?_⟩
  have h1 : rotate_pdf ⟨"rotated.pdf", Except.ok d⟩ none none =
      Except.ok (rotateDoc d (List.range d.length) 90) := by
    simp [rotate_pdf, pagesTruthy, show endsWithPdf "rotated.pdf" = true from by decide]
  rw [h1, rotateDoc_range]

/-- C6: for every rotation request that succeeds, the output has the same
page count and page order (same page identity at every index) as the
source; the angle is one of 90/180/270; every page in the target set — the
parsed selection, or all pages when the expression is absent/empty — has
the angle added to its orientation modulo 360 relative to its existing
orientation; every page outside the target set is appended unchanged; and
rotating by 90 four times restores every page's orientation. -/
theorem rotate_preserves_structure (file : PdfUpload) (angleForm : Option Int)
    (pages : Option String) (doc out : Doc) (hdec : file.decoded = Except.ok doc)
    (h : rotate_pdf file angleForm pages = Except.ok out) :
    (angleForm.getD 90 = 90 ∨ angleForm.getD 90 = 180 ∨ angleForm.getD 90 = 270) ∧
    out.length = doc.length ∧
    (∃ indices : List Nat,
      (pagesTruthy pages = true → _parse_pages pages doc.length = Except.ok indices) ∧
      (pagesTruthy pages = false → indices = List.range doc.length) ∧
      ∀ i, i < doc.length →
        (indices.contains i = true →
          (out.getD i dPage).pid = (doc.getD i dPage).pid ∧
          (out.getD i dPage).rot % 360 =
            ((doc.getD i dPage).rot + angleForm.getD 90) % 360) ∧
        (indices.contains i = false → out.getD i dPage = doc.getD i dPage)) ∧
    (∀ (d : Doc) (idx : List Nat) (i : Nat), i < d.length →
      ((rotateDoc (rotateDoc (rotateDoc (rotateDoc d idx 90) idx 90) idx 90) idx 90).getD
          i dPage).pid = (d.getD i dPage).pid ∧
      ((rotateDoc (rotateDoc (rotateDoc (rotateDoc d idx 90) idx 90) idx 90) idx 90).getD
          i dPage).rot % 360 = (d.getD i dPage).rot % 360) := by
  simp only [rotate_pdf, hdec] at h
  split at h
  · next hangle =>
    split at h
    · split at h
      · exact absurd h (by simp)
      · exact absurd h (by simp)
      · next indices heq =>
        cases h
        refine ⟨hangle, rotateDoc_length doc indices _, ⟨indices, ?_, ?_, ?_⟩, ?_⟩
        · intro ht
          rwa [if_pos ht] at heq
        · intro hf
          rw [if_neg (by simp [hf])] at heq
          exact (Except.ok.inj heq).symm
        · intro i hi
          constructor
          · intro hc
            rw [rotateDoc_getD doc indices _ i hi, if_pos hc]
            exact ⟨rfl, rfl⟩
          · intro hc
            rw [rotateDoc_getD doc indices _ i hi]
            simp only [hc, Bool.false_eq_true, if_false]
        · intro d idx i hi
          exact rotateDoc_four d idx i hi
    · exact absurd h (by simp)
  · exact absurd h (by simp)

theorem rotate_preserves_structure_witness :
    ((some (90 : Int)).getD 90 = 90 ∨ (some (90 : Int)).getD 90 = 180 ∨
      (some (90 : Int)).getD 90 = 270) ∧
    ([⟨1, 90⟩, ⟨2, 90⟩] : Doc).length = ([⟨1, 0⟩, ⟨2, 0⟩] : Doc).length ∧
    (∃ indices : List Nat,
      (pagesTruthy none = true →
        _parse_pages none ([⟨1, 0⟩, ⟨2, 0⟩] : Doc).length = Except.ok indices) ∧
      (pagesTruthy none = false → indices = List.range ([⟨1, 0⟩, ⟨2, 0⟩] : Doc).length) ∧
      ∀ i, i < ([⟨1, 0⟩, ⟨2, 0⟩] : Doc).length →
        (indices.contains i = true →
          (([⟨1, 90⟩, ⟨2, 90⟩] : Doc).getD i dPage).pid =
            (([⟨1, 0⟩, ⟨2, 0⟩] : Doc).getD i dPage).pid ∧
          (([⟨1, 90⟩, ⟨2, 90⟩] : Doc).getD i dPage).rot % 360 =
            ((([⟨1, 0⟩, ⟨2, 0⟩] : Doc).getD i dPage).rot + (some (90 : Int)).getD 90) % 360) ∧
        (indices.contains i = false →
          ([⟨1, 90⟩, ⟨2, 90⟩] : Doc).getD i dPage = ([⟨1, 0⟩, ⟨2, 0⟩] : Doc).getD i dPage)) ∧
    (∀ (d : Doc) (idx : List Nat) (i : Nat), i < d.length →
      ((rotateDoc (rotateDoc (rotateDoc (rotateDoc d idx 90) idx 90) idx 90) idx 90).getD
          i dPage).pid = (d.getD i dPage).pid ∧
      ((rotateDoc (rotateDoc (rotateDoc (rotateDoc d idx 90) idx 90) idx 90) idx 90).getD
          i dPage).rot % 360 = (d.getD i dPage).rot % 360) :=
  rotate_preserves_structure ⟨"a.pdf", Except.ok [⟨1, 0⟩, ⟨2, 0⟩]⟩ (some 90) none
    [⟨1, 0⟩, ⟨2, 0⟩] [⟨1, 90⟩, ⟨2, 90⟩] (by decide) (by decide)

/-- C5 counterexample: on one valid image with `first.save(...)` raising,
the handler exits with the decoded handle still open — the
assembly-failure exit path releases nothing, so it is not the case that
every decoded image resource is released on every exit path. -/
theorem images_to_pdf_leak_cex :
    images_to_pdf [⟨some ⟨1⟩⟩] true =
      ⟨Except.error (ApiErr.pyError "save raised"), [⟨1⟩]⟩ ∧
    (images_to_pdf [⟨some ⟨1⟩⟩] true).openAtExit ≠ [] := by decide

/-- C5 (amended): a decode failure anywhere in the sequence aborts the whole
conversion with the 400 `InvalidInput` response, producing no partial output
and releasing every handle decoded so far before the error is surfaced; on
the successful path (and every path where `save` does not raise) all decoded
handles are released; but when `save` raises during output assembly the
decoded handles are not released on that exit path. -/
theorem images_to_pdf_cleanup (images : List ImgUpload) :
    (∀ (saveRaises : Bool) (opened : List PILImage),
      decodeLoop images [] = Except.error opened →
        images_to_pdf images saveRaises =
          ⟨Except.error (ApiErr.http 400 "One or more files are not valid images"), []⟩) ∧
    (images_to_pdf images false).openAtExit = [] ∧
    (∀ pil : List PILImage, decodeLoop images [] = Except.ok pil → images ≠ [] →
      images_to_pdf images true = ⟨Except.error (ApiErr.pyError "save raised"), pil⟩) := by
  refine ⟨?_, ?_, ?_⟩
  · intro saveRaises opened hfail
    simp only [images_to_pdf]
    split
    · next hlen =>
      rw [List.length_eq_zero] at hlen
      subst hlen
      exact absurd hfail (by simp [decodeLoop])
    · rw [hfail]
  · simp only [images_to_pdf]
    split
    · rfl
    · cases hd : decodeLoop images [] with
      | error opened => rfl
      | ok pil => rfl
  · intro pil hok hne
    simp only [images_to_pdf]
    split
    · next hlen =>
      rw [List.length_eq_zero] at hlen
      exact absurd hlen hne
    · rw [hok]
      rfl

theorem images_to_pdf_cleanup_witness :
    (∀ (saveRaises : Bool) (opened : List PILImage),
      decodeLoop [⟨some ⟨1⟩⟩] [] = Except.error opened →
        images_to_pdf [⟨some ⟨1⟩⟩] saveRaises =
          ⟨Except.error (ApiErr.http 400 "One or more files are not valid images"), []⟩) ∧
    (images_to_pdf [⟨some ⟨1⟩⟩] false).openAtExit = [] ∧
    (∀ pil : List PILImage, decodeLoop [⟨some ⟨1⟩⟩] [] = Except.ok pil →
      ([⟨some ⟨1⟩⟩] : List ImgUpload) ≠ [] →
      images_to_pdf [⟨some ⟨1⟩⟩] true = ⟨Except.error (ApiErr.pyError "save raised"), pil⟩) :=
  images_to_pdf_cleanup [⟨some ⟨1⟩⟩]

theorem pageLoop_stops_at_err (pre : List ImgItem) :
    ∀ (rest : List ImgItem), ImgItem.err ∉ pre →
      ∀ (pageIdx cnt : Nat) (acc : List ZipEntry),
        pageLoop (pre ++ ImgItem.err :: rest) pageIdx cnt acc = pageLoop pre pageIdx cnt acc := by
  induction pre with
  | nil => intro rest _ pageIdx cnt acc; rfl
  | cons x xs ih =>
    intro rest hpre pageIdx cnt acc
    cases x with
    | err => exact absurd (List.mem_cons_self _ _) hpre
    | img fmt data =>
      simp only [List.cons_append, pageLoop]
      exact ih rest (fun hm => hpre (List.mem_cons_of_mem _ hm)) _ _ _

/-- C2 counterexample: a page on which reading raises after its first image
still contributes that image's entry to the archive — one entry, not zero —
while processing continues and the next page contributes its own entry. -/
theorem extract_partial_page_cex :
    pageLoop [ImgItem.img (some "PNG") [7], ImgItem.err] 1 0 [] =
      (1, [⟨"page1_img1.png", [7]⟩]) ∧
    (pageLoop [ImgItem.img (some "PNG") [7], ImgItem.err] 1 0 []).2.length ≠ 0 ∧
    extract_images ⟨"a.pdf", Except.ok
        [⟨[ImgItem.img (some "PNG") [7], ImgItem.err]⟩,
         ⟨[ImgItem.img (some "JPEG") [9]]⟩]⟩ =
      Except.ok (ExtractResult.archive
        [⟨"page1_img1.png", [7]⟩, ⟨"page2_img2.jpeg", [9]⟩]) := by decide

/-- C2 (amended): when enumerating or reading a page's images raises, the
remainder of that page is skipped but the entries already recovered from it
stay in the archive (zero entries exactly when the failure precedes the
first image), and the outer loop always continues with the next page, which
still contributes its recovered images. -/
theorem extract_skip_on_failure (p : XPage) (ps : List XPage)
    (pre rest : List ImgItem) (hp : p.items = pre ++ ImgItem.err :: rest)
    (hpre : ImgItem.err ∉ pre) (pageIdx cnt : Nat) (acc : List ZipEntry) :
    pageLoop p.items pageIdx cnt acc = pageLoop pre pageIdx cnt acc ∧
    extractLoop (p :: ps) pageIdx cnt acc =
      extractLoop ps (pageIdx + 1) (pageLoop p.items pageIdx cnt acc).1
        (pageLoop p.items pageIdx cnt acc).2 := by
  refine ⟨?_, rfl⟩
  rw [hp]
  exact pageLoop_stops_at_err pre rest hpre pageIdx cnt acc

theorem extract_skip_on_failure_witness :
    pageLoop (XPage.mk [ImgItem.img (some "PNG") [7], ImgItem.err]).items 1 0 [] =
      pageLoop [ImgItem.img (some "PNG") [7]] 1 0 [] ∧
    extractLoop [XPage.mk [ImgItem.img (some "PNG") [7], ImgItem.err],
        XPage.mk [ImgItem.img (some "JPEG") [9]]] 1 0 [] =
      extractLoop [XPage.mk [ImgItem.img (some "JPEG") [9]]] 2
        (pageLoop (XPage.mk [ImgItem.img (some "PNG") [7], ImgItem.err]).items 1 0 []).1
        (pageLoop (XPage.mk [ImgItem.img (some "PNG") [7], ImgItem.err]).items 1 0 []).2 :=
  extract_skip_on_failure (XPage.mk [ImgItem.img (some "PNG") [7], ImgItem.err])
    [XPage.mk [ImgItem.img (some "JPEG") [9]]]
    [ImgItem.img (some "PNG") [7]] [] (by decide) (by decide) 1 0 []

/-- Whether a handler result is the `JSONResponse` "no images found"
signal. -/
def isJsonResult : Except ApiErr ExtractResult → Bool
  | Except.ok (ExtractResult.json _) => true
  | _ => false

/-- C3 (code bug): a document from which zero image entries are recovered
gets an empty zip archive presented as a successful archive result, and the
"no images found" JSON signal is unreachable for every input: a closed
write-mode `ZipFile` occupies 22 bytes even with zero entries, so the
`zip_buf.getbuffer().nbytes == 0` test never fires. -/
theorem extract_empty_archive_bug :
    extract_images ⟨"a.pdf", Except.ok [⟨[]⟩]⟩ = Except.ok (ExtractResult.archive []) ∧
    zipNBytes [] = 22 ∧
    (∀ f : XUpload, isJsonResult (extract_images f) = false) := by
  refine ⟨by decide, by decide, ?_⟩
  intro f
  simp only [extract_images]
  split
  · split
    · rfl
    · split
      · next hz =>
        exact absurd hz (by simp [zipNBytes])
      · rfl
  · rfl

end PdfToolkit
